import Mathlib

/-!
Verification development for the EmailPractise repository (src/app.py).

The Python code is shallowly embedded: the string primitives used by the
program (`str.split`, `str.split(sep)`, `str.strip`, `str.lower`, the `in`
substring operator) are modelled over `List Char` on the ASCII fragment
(the texts and word lists manipulated by the program are ASCII), pure
functions become Lean functions, and the file I/O of `DataManager` is
modelled by passing the file contents (`Option (List VocabularyWord)`)
and a `writeOk` flag standing for whether the file write raises.
-/

/-! ## Python string primitives -/

/-- Whitespace as recognised by Python `str.split()` / `str.strip()`
(restricted to the ASCII whitespace characters). -/
def isPySpace (c : Char) : Bool :=
  c = ' ' || c = '\t' || c = '\n' || c = '\r' || c = '\x0b' || c = '\x0c'

/-- Python `str.lower()` on a character (ASCII fragment). -/
def pyLowerChar (c : Char) : Char := c.toLower

/-- Python `str.lower()` (ASCII fragment). -/
def pyLower (s : String) : String := String.mk (s.data.map pyLowerChar)

/-- Python `str.strip()`: remove leading and trailing whitespace. -/
def pyStrip (l : List Char) : List Char :=
  ((l.dropWhile isPySpace).reverse.dropWhile isPySpace).reverse

/-- Python substring test `n in h` over character lists. -/
def containsSub (n : List Char) : List Char → Bool
  | [] => n.isEmpty
  | c :: cs => n.isPrefixOf (c :: cs) || containsSub n cs

/-- Python substring test `needle in hay` on strings. -/
def pyContains (needle hay : String) : Bool := containsSub needle.data hay.data

/-- Python `str.split()` (no separator): split on runs of whitespace,
discarding empty segments. -/
def pySplitWs : List Char → List (List Char)
  | [] => []
  | c :: cs =>
    let r := pySplitWs cs
    if isPySpace c then r
    else
      match cs.head? with
      | none => [[c]]
      | some d => if isPySpace d then [c] :: r else (c :: r.headD []) :: r.tail

/-- Python `str.split()` on strings, returning strings. -/
def pySplitWsStr (s : String) : List String := (pySplitWs s.data).map String.mk

/-- Python `str.split(sep)` for a one-character separator: split at every
occurrence of the separator, keeping empty segments. -/
def splitOnChar (sep : Char) : List Char → List (List Char)
  | [] => [[]]
  | c :: cs =>
    if c = sep then [] :: splitOnChar sep cs
    else
      match splitOnChar sep cs with
      | [] => [[c]]
      | g :: gs => (c :: g) :: gs

/-- Python `str.split("\n\n")`: split at every leftmost non-overlapping
occurrence of a double newline, keeping empty segments. -/
def splitOnNN : List Char → List (List Char)
  | '\n' :: '\n' :: cs => [] :: splitOnNN cs
  | c :: cs =>
    match splitOnNN cs with
    | [] => [[c]]
    | g :: gs => (c :: g) :: gs
  | [] => [[]]

/-! ## Data model (src/app.py, dataclasses) -/

/-- The `EmailScenario` dataclass of src/app.py. -/
structure EmailScenario where
  scenario : String
  prompt : String
  context : String
  difficulty : String
deriving Repr, DecidableEq

/-- The `VocabularyWord` dataclass of src/app.py. -/
structure VocabularyWord where
  english : String
  italian : String
  definition : String := ""
  «example» : String := ""
deriving Repr, DecidableEq

/-- The analysis report assembled by `EmailPractice._render_email_analysis`
(src/app.py lines 248-313): the three metrics, the five structure-analysis
booleans, and the evidence lists of the five style-smell detectors.  Smell
evidence is modelled as the matched phrase (the UI wraps it in
a Found marker); long-sentence evidence is the first 50 characters of the
stripped offending sentence (the UI adds an index and an ellipsis). -/
structure AnalysisReport where
  wordCount : Nat
  sentenceCount : Nat
  paragraphCount : Nat
  greeting : Bool
  closing : Bool
  politeLanguage : Bool
  clearPurpose : Bool
  professionalTone : Bool
  passiveVoice : List String
  longSentences : List String
  complexWords : List String
  contractions : List String
  weakPhrases : List String
deriving Repr, DecidableEq

/-! ## StructureChecker: embedding of the computations of `_render_email_analysis` -/

/-- The analyzer of src/app.py lines 254-308: metrics (lines 254-256),
structure dictionary (lines 265-275) and common-mistake detectors
(lines 287-308), embedded as a pure function of the email text and the
scenario. -/
def analyze (response : String) (scenario : EmailScenario) : AnalysisReport :=
  let lower := pyLower response
  { wordCount := (pySplitWs response.data).length
    sentenceCount :=
      ((splitOnChar '.' response.data).filter
        (fun s => decide (0 < (pyStrip s).length))).length
    paragraphCount :=
      ((splitOnNN response.data).filter
        (fun s => decide (0 < (pyStrip s).length))).length
    greeting := pyContains "dear" lower
    closing :=
      (["regards", "sincerely", "best", "cheers", "cordially"]).any
        (fun w => pyContains w lower)
    politeLanguage :=
      (["please", "thank you", "appreciate", "grateful"]).any
        (fun w => pyContains w lower)
    clearPurpose :=
      ((["purpose", "reason", "writing", "contacting"] ++
          pySplitWsStr (pyLower scenario.prompt)).any
        (fun w => pyContains w lower))
    professionalTone :=
      !((["hey", "hi", "what\x27s up", "lol"]).any
        (fun w => pyContains w lower))
    passiveVoice :=
      (["was done", "were given", "is being", "has been"]).filter
        (fun p => pyContains (pyLower p) lower)
    longSentences :=
      (((splitOnChar '.' response.data).filter
          (fun s => decide (25 < (pySplitWs s).length))).filter
        (fun s => decide (0 < (pyStrip s).length))).map
        (fun s => String.mk ((pyStrip s).take 50))
    complexWords :=
      (["utilize", "endeavor", "fabricate", "elucidate"]).filter
        (fun p => pyContains (pyLower p) lower)
    contractions :=
      (["don\x27t", "can\x27t", "won\x27t", "isn\x27t"]).filter
        (fun p => pyContains (pyLower p) lower)
    weakPhrases :=
      (["I think", "just", "maybe", "perhaps", "a bit"]).filter
        (fun p => pyContains (pyLower p) lower) }

/-! ## Highlighter: embedding of `EmailPractice._highlight_text`

Every pattern built by `_highlight_text` has the shape `\b(a₁|a₂|…)\b`
compiled with `re.IGNORECASE`, applied by `re.sub` with replacement
`<span …>\1</span>`.  The matcher below embeds exactly that fragment of
Python `re`: a left-to-right scan over the subject, trying the
alternatives in order at each position, requiring a word boundary before
and after the alternative, matching the alternative case-insensitively,
and continuing after the end of a replacement (replaced text is not
rescanned within the same pass).  Compilation of the dynamically built
scenario-keyword patterns `\b(word)\b` is modelled as succeeding exactly
when `word` is free of regex metacharacters; on metacharacter-free words
this agrees with `re` (the word is then a literal), and on the failing
inputs used below (unbalanced parentheses) `re.compile` raises
`re.error`, modelled as `Except.error`. -/

/-- Word characters of Python `\b` / `\w` (ASCII fragment). -/
def isWordChar (c : Char) : Bool :=
  ('a' ≤ c && c ≤ 'z') || ('A' ≤ c && c ≤ 'Z') || ('0' ≤ c && c ≤ '9') || c = '_'

/-- Wordness of an optional character; the ends of the subject count as
non-word positions. -/
def wordOpt : Option Char → Bool
  | none => false
  | some c => isWordChar c

/-- Case-insensitive prefix test: does the subject start with the
alternative, ignoring case? -/
def ciStartsWith : List Char → List Char → Bool
  | [], _ => true
  | _ :: _, [] => false
  | a :: as, c :: cs => (a.toLower == c.toLower) && ciStartsWith as cs

/-- Try the alternatives of a `\b(a₁|a₂|…)\b` pattern at the current
position, in order (Python alternation is ordered): `prev` is the subject
character immediately before the current position (`none` at the start).
Returns the length of the match, if any. -/
def tryMatchAt (alts : List String) (prev : Option Char) (chars : List Char) : Option Nat :=
  match alts with
  | [] => none
  | a :: rest =>
    if ciStartsWith a.data chars
        && (wordOpt prev != wordOpt chars.head?)
        && (wordOpt (chars.take a.data.length).getLast? != wordOpt (chars.drop a.data.length).head?)
    then some a.data.length
    else tryMatchAt rest prev chars

/-- The opening span tag inserted by the replacement string of `re.sub`
(src/app.py line 361). -/
def spanOpen (color title : String) : List Char :=
  ("<span style=\"background-color: " ++ color ++
    "; border-radius: 3px; padding: 0 2px;\" title=\"" ++ title ++ "\">").data

/-- The closing span tag inserted by the replacement string of `re.sub`. -/
def spanClose : List Char := "</span>".data

/-- One `re.sub` pass over the subject.  The `fuel` argument only bounds
the recursion; every match consumes at least one character (all
alternatives are non-empty words), so with `fuel = chars.length` the
fuel never runs out and the fuel-exhausted branch (which returns the
rest of the subject unchanged) is never taken. -/
def applyRuleFuel (alts : List String) (color title : String) :
    Nat → Option Char → List Char → List Char
  | 0, _, chars => chars
  | _ + 1, _, [] => []
  | fuel + 1, prev, c :: cs =>
    match tryMatchAt alts prev (c :: cs) with
    | some n =>
      spanOpen color title ++ ((c :: cs).take n) ++ spanClose ++
        applyRuleFuel alts color title fuel ((c :: cs).take n).getLast? ((c :: cs).drop n)
    | none => c :: applyRuleFuel alts color title fuel (some c) cs

/-- `re.sub(r"\b(a₁|a₂|…)\b", replacement, subject, flags=re.IGNORECASE)`
for the span replacement of `_highlight_text`. -/
def applyAlts (alts : List String) (color title : String) (chars : List Char) : List Char :=
  applyRuleFuel alts color title chars.length none chars

/-- A highlight rule of `_highlight_text`: one of the eight fixed
`(pattern, color, title)` triples (the pattern kept as its alternative
list), or a dynamically appended scenario-keyword rule carrying the raw
interpolated word. -/
inductive HRule where
  | fixed (alts : List String) (color title : String)
  | keyword (word : String)
deriving Repr, DecidableEq

/-- Alternatives of the complex-word rule (src/app.py line 346). -/
def complexWordAlts : List String := ["utilize", "endeavor", "fabricate", "elucidate"]

/-- The eight fixed highlight rules of src/app.py lines 340-349, in
source order. -/
def fixedRules : List HRule :=
  [ HRule.fixed ["dear"] "#4CAF50" "Greeting",
    HRule.fixed ["regards", "sincerely", "best", "cheers", "cordially"] "#4CAF50" "Closing",
    HRule.fixed ["please", "thank you", "appreciate", "grateful"] "#4CAF50" "Polite",
    HRule.fixed ["hey", "hi", "what\x27s up", "lol"] "#FF5252" "Informal",
    HRule.fixed ["just", "maybe", "perhaps", "a bit"] "#FF9800" "Weak phrase",
    HRule.fixed complexWordAlts "#9C27B0" "Complex word",
    HRule.fixed ["don\x27t", "can\x27t", "won\x27t", "isn\x27t"] "#2196F3" "Contraction",
    HRule.fixed ["I think", "I believe", "in my opinion"] "#FFC107" "Hesitation" ]

/-- The scenario-keyword words of src/app.py lines 352-354: every word of
`scenario.prompt.lower().split() + scenario.context.lower().split()`
whose length exceeds 4, in encounter order (no deduplication in the
source). -/
def scenarioKeywords (sc : EmailScenario) : List String :=
  (pySplitWsStr (pyLower sc.prompt) ++ pySplitWsStr (pyLower sc.context)).filter
    (fun w => decide (4 < w.length))

/-- Regex metacharacters: a scenario word containing none of these is
interpolated into `\b(word)\b` as a pure literal. -/
def regexMetaChars : List Char :=
  ['.', '^', '$', '*', '+', '?', '\\', '[', ']', '(', ')', '\x7b', '\x7d', '|']

/-- A word free of regex metacharacters, whose interpolated pattern
`\b(word)\b` compiles and matches the word literally. -/
def regexPlain (w : String) : Bool := w.data.all (fun c => !(regexMetaChars.contains c))

/-- The full ordered rule list built by `_highlight_text` for a scenario:
the eight fixed rules followed by one keyword rule per encountered
qualifying word. -/
def highlight_rules (sc : EmailScenario) : List HRule :=
  fixedRules ++ (scenarioKeywords sc).map HRule.keyword

/-- Apply one highlight rule to the subject; a scenario-keyword rule
whose word does not compile makes `re.sub` raise `re.error`. -/
def applyHRule : HRule → List Char → Except String (List Char)
  | HRule.fixed alts color title, s => Except.ok (applyAlts alts color title s)
  | HRule.keyword w, s =>
    if regexPlain w then Except.ok (applyAlts [w] "#00BCD4" "Scenario keyword" s)
    else Except.error "re.error"

/-- Apply the rules in order, each to the output of the previous one
(src/app.py lines 357-364); an exception aborts the whole call. -/
def applyHRules : List HRule → List Char → Except String (List Char)
  | [], s => Except.ok s
  | r :: rs, s =>
    match applyHRule r s with
    | Except.ok s2 => applyHRules rs s2
    | Except.error e => Except.error e

/-- The enclosing div of src/app.py line 366. -/
def divOpen : List Char :=
  "<div style=\"background-color: #f5f5f5; padding: 15px; border-radius: 5px; white-space: pre-wrap;\">".data

/-- The closing div of src/app.py line 366. -/
def divClose : List Char := "</div>".data

/-- `EmailPractice._highlight_text` (src/app.py lines 336-366): build the
rule list, apply every rule in order, and wrap the result in the outer
div.  A `re.error` raised while applying a malformed scenario-keyword
pattern propagates as `Except.error`. -/
def _highlight_text (text : String) (sc : EmailScenario) : Except String String :=
  match applyHRules (highlight_rules sc) text.data with
  | Except.ok h => Except.ok (String.mk (divOpen ++ h ++ divClose))
  | Except.error e => Except.error e

/-- Does a `\b(a₁|a₂|…)\b` pattern match anywhere in the subject?  Same
scan as `applyRuleFuel`, reporting only whether a match exists. -/
def hasMatchFuel (alts : List String) : Nat → Option Char → List Char → Bool
  | 0, _, _ => false
  | _ + 1, _, [] => false
  | fuel + 1, prev, c :: cs =>
    match tryMatchAt alts prev (c :: cs) with
    | some _ => true
    | none => hasMatchFuel alts fuel (some c) cs

/-- Whether the pattern of a fixed rule is triggered by (matches
somewhere in) the given text. -/
def ruleMatchExists (alts : List String) (text : String) : Bool :=
  hasMatchFuel alts text.data.length none text.data

/-! ## DataManager: vocabulary persistence (src/app.py lines 114-165)

The flat-file I/O is modelled by passing the parsed contents of
`data/vocabulary.json` explicitly: `none` stands for a missing file or
any exception while reading or parsing it (both make the code fall back
to the defaults), `some loaded` for a successfully parsed list.  The
write in `save_vocabulary` is modelled by a `writeOk` flag standing for
whether `open`/`json.dump` raises; the surrounding `try/except` turns
any exception into a `False` return. -/

/-- The `default_vocabulary` list of `DataManager.load_vocabulary`
(src/app.py lines 116-137). -/
def default_vocabulary : List VocabularyWord :=
  [ ⟨"deadline", "scadenza", "", ""⟩,
    ⟨"stakeholder", "portatore di interessi", "", ""⟩,
    ⟨"milestone", "pietra miliare", "", ""⟩,
    ⟨"deliverable", "risultato consegnabile", "", ""⟩,
    ⟨"benchmark", "punto di riferimento", "", ""⟩,
    ⟨"feedback", "riscontro", "", ""⟩,
    ⟨"follow-up", "follow-up", "", ""⟩,
    ⟨"brainstorming", "brainstorming", "", ""⟩,
    ⟨"workshop", "workshop", "", ""⟩,
    ⟨"quarterly", "trimestrale", "", ""⟩,
    ⟨"sustainable", "sostenibile", "", ""⟩,
    ⟨"streamline", "razionalizzare", "", ""⟩,
    ⟨"leverage", "sfruttare", "", ""⟩,
    ⟨"synergy", "sinergia", "", ""⟩,
    ⟨"bandwidth", "capacità", "", ""⟩,
    ⟨"actionable", "attuabile", "", ""⟩,
    ⟨"roadmap", "roadmap", "", ""⟩,
    ⟨"onboarding", "onboarding", "", ""⟩,
    ⟨"touchpoint", "punto di contatto", "", ""⟩,
    ⟨"upskill", "migliorare le competenze", "", ""⟩ ]

/-- The case-insensitive dedup key of a vocabulary entry:
`v.english.lower()`. -/
def vocabKey (v : VocabularyWord) : String := pyLower v.english

/-- `DataManager.load_vocabulary` (src/app.py lines 139-152): with a
readable file, merge the defaults into the loaded list, appending each
default whose lowercased `english` is not among the keys of the loaded
entries (the key set is computed once, before the loop); otherwise
return the defaults. -/
def load_vocabulary (file : Option (List VocabularyWord)) : List VocabularyWord :=
  match file with
  | none => default_vocabulary
  | some loaded =>
    loaded ++ default_vocabulary.filter
      (fun w => !((loaded.map vocabKey).contains (vocabKey w)))

/-- `DataManager.save_vocabulary` (src/app.py lines 154-165): load the
current vocabulary, append the new word unconditionally, and write the
result back; returns the success flag and the resulting file contents
(unchanged when the write raises). -/
def save_vocabulary (file : Option (List VocabularyWord)) (writeOk : Bool)
    (word : VocabularyWord) : Bool × Option (List VocabularyWord) :=
  if writeOk then (true, some (load_vocabulary file ++ [word]))
  else (false, file)

/-! ## Spec-side counting definitions

These two definitions follow the words of the specification ("count of
whitespace-delimited tokens", segments "whose stripped form is
non-empty") rather than the source, for the refinement claims relating
the analyzer metrics to the specified counting algorithms. -/

/-- Spec-side word count: the number of positions that start a
whitespace-delimited token, i.e. hold a non-whitespace character whose
predecessor (if any) is whitespace.  `prevBoundary` is true at the start
of the text and after a whitespace character. -/
def wordStarts (prevBoundary : Bool) : List Char → Nat
  | [] => 0
  | c :: cs =>
    (if !(isPySpace c) && prevBoundary then 1 else 0) + wordStarts (isPySpace c) cs

/-- One if the list starts with a non-whitespace character. -/
def startsWord (l : List Char) : Nat :=
  match l.head? with
  | some c => if isPySpace c then 0 else 1
  | none => 0

/-- Spec-side "stripped form is non-empty": the segment has some
non-whitespace character. -/
def hasInk (l : List Char) : Bool := l.any (fun c => !(isPySpace c))

/-- Spec-side scenario-keyword word list: one entry per distinct
qualifying word, keeping the first occurrence, in encounter order
(following the specification wording: every distinct word). -/
def dedupKeepFirst : List String → List String
  | [] => []
  | w :: ws => w :: (dedupKeepFirst ws).filter (fun v => v != w)

/-- The empty scenario, used to instantiate scenario-independent facts. -/
def scEmpty : EmailScenario := ⟨"", "", "", ""⟩

/-- A scenario whose prompt holds a word longer than 4 characters made
of unbalanced parentheses, on which Python raises `re.error` when
`re.sub` compiles the interpolated pattern. -/
def scBadRegex : EmailScenario := ⟨"s", "((((x", "", "Easy"⟩

/-- A scenario whose prompt repeats a qualifying word. -/
def scRepeatedWord : EmailScenario := ⟨"s", "hello hello", "", "Easy"⟩

/-- The worked example text of the specification. -/
def exampleText : String := "Dear Sam, I just wanted to say thank you. Best regards, Alex."

/-- A capitalised duplicate of the default entry "deadline". -/
def wDeadlineCap : VocabularyWord := ⟨"Deadline", "scadenza fissata", "", ""⟩

/-! ## Counting lemmas (for C1) -/

/-- One-step unfolding of `pySplitWs` at a whitespace head. -/
theorem pySplitWs_cons_space (c : Char) (cs : List Char) (hc : isPySpace c = true) :
    pySplitWs (c :: cs) = pySplitWs cs := by
  rw [pySplitWs.eq_def]
  simp [hc]

/-- One-step unfolding of `pySplitWs` at a final non-whitespace character. -/
theorem pySplitWs_singleton (c : Char) (hc : isPySpace c = false) :
    pySplitWs [c] = [[c]] := by
  rw [pySplitWs.eq_def]
  simp [hc]

/-- One-step unfolding of `pySplitWs` at a token end. -/
theorem pySplitWs_cons_break (c d : Char) (ds : List Char)
    (hc : isPySpace c = false) (hd : isPySpace d = true) :
    pySplitWs (c :: d :: ds) = [c] :: pySplitWs (d :: ds) := by
  rw [pySplitWs.eq_def]
  simp [hc, hd]

/-- One-step unfolding of `pySplitWs` inside a token. -/
theorem pySplitWs_cons_glue (c d : Char) (ds : List Char)
    (hc : isPySpace c = false) (hd : isPySpace d = false) :
    pySplitWs (c :: d :: ds) =
      (c :: (pySplitWs (d :: ds)).headD []) :: (pySplitWs (d :: ds)).tail := by
  rw [pySplitWs.eq_def]
  simp [hc, hd]

/-- The number of segments of `str.split()` equals the number of token
starts; the second conjunct tracks the same count when the text is
entered mid-token. -/
theorem pySplitWs_length_aux : ∀ l : List Char,
    (pySplitWs l).length = wordStarts true l ∧
    (pySplitWs l).length = wordStarts false l + startsWord l
  | [] => by simp [pySplitWs, wordStarts, startsWord]
  | c :: cs => by
    have ih := pySplitWs_length_aux cs
    by_cases hc : isPySpace c
    · rw [pySplitWs_cons_space c cs hc]
      refine ⟨by simp [wordStarts, hc, ih.1], ?_⟩
      simp [wordStarts, startsWord, hc, ih.1]
    · have hc' : isPySpace c = false := by simpa using hc
      match cs with
      | [] =>
        rw [pySplitWs_singleton c hc']
        simp [wordStarts, startsWord, hc']
      | d :: ds =>
        by_cases hd : isPySpace d
        · have h2 : (pySplitWs (d :: ds)).length = wordStarts false (d :: ds) := by
            simpa [startsWord, hd] using ih.2
          rw [pySplitWs_cons_break c d ds hc' hd]
          have hw2 : wordStarts true (c :: d :: ds) = 1 + wordStarts true ds := by
            simp [wordStarts, hc', hd]
          have hw3 : wordStarts false (c :: d :: ds) = wordStarts true ds := by
            simp [wordStarts, hc', hd]
          have hs : startsWord (c :: d :: ds) = 1 := by
            simp [startsWord, hc']
          have h2' : (pySplitWs (d :: ds)).length = wordStarts true ds := by
            rw [h2]
            simp [wordStarts, hd]
          rw [hw2, hw3, hs]
          refine ⟨?_, ?_⟩
          · simp only [List.length_cons]
            omega
          · simp only [List.length_cons]
            omega
        · have hd' : isPySpace d = false := by simpa using hd
          have h2 : (pySplitWs (d :: ds)).length = wordStarts false (d :: ds) + 1 := by
            simpa [startsWord, hd'] using ih.2
          have hne : pySplitWs (d :: ds) ≠ [] := by
            intro hnil
            rw [hnil] at h2
            simp at h2
          have hlen := List.length_pos.mpr hne
          have htail : (pySplitWs (d :: ds)).tail.length = (pySplitWs (d :: ds)).length - 1 :=
            List.length_tail _
          have hw : wordStarts false (d :: ds) = wordStarts false ds := by
            simp [wordStarts, hd']
          rw [pySplitWs_cons_glue c d ds hc' hd']
          have hw2 : wordStarts true (c :: d :: ds) = 1 + wordStarts false (d :: ds) := by
            simp [wordStarts, hc', hd', hw]
          have hw3 : wordStarts false (c :: d :: ds) = wordStarts false (d :: ds) := by
            simp [wordStarts, hc', hd', hw]
          have hs : startsWord (c :: d :: ds) = 1 := by
            simp [startsWord, hc']
          rw [hw2, hw3, hs]
          refine ⟨?_, ?_⟩
          · simp only [List.length_cons]
            omega
          · simp only [List.length_cons]
            omega

/-- The stripped form of a segment is non-empty exactly when the segment
has a non-whitespace character. -/
theorem strip_pos_eq_hasInk (l : List Char) :
    decide (0 < (pyStrip l).length) = hasInk l := by
  have key : pyStrip l = [] ↔ ∀ c ∈ l, isPySpace c = true := by
    unfold pyStrip
    rw [List.reverse_eq_nil_iff, List.dropWhile_eq_nil_iff]
    constructor
    · intro h c hc
      rcases List.mem_append.mp
          ((List.takeWhile_append_dropWhile (p := isPySpace) (l := l)) ▸ hc) with hm | hm
      · exact List.mem_takeWhile_imp hm
      · exact h c (List.mem_reverse.mpr hm)
    · intro h c hc
      exact h c ((List.dropWhile_sublist _).subset (List.mem_reverse.mp hc))
  cases h : hasInk l
  · have hall : ∀ c ∈ l, isPySpace c = true := by
      intro c hc
      have := List.any_eq_false.mp h c hc
      simpa using this
    simp [key.mpr hall]
  · rcases List.any_eq_true.mp h with ⟨c, hc, hcs⟩
    have : pyStrip l ≠ [] := by
      intro hnil
      have := key.mp hnil c hc
      simp [this] at hcs
    simpa [List.length_pos] using this

/-! ## Subsequence-preservation lemmas (for C2) -/

/-- One `re.sub` pass never deletes or reorders subject characters: the
subject is a subsequence of the output. -/
theorem sublist_applyRuleFuel (alts : List String) (color title : String) :
    ∀ (fuel : Nat) (prev : Option Char) (chars : List Char),
      chars.Sublist (applyRuleFuel alts color title fuel prev chars)
  | 0, _, chars => List.Sublist.refl chars
  | _ + 1, _, [] => by simp [applyRuleFuel]
  | fuel + 1, prev, c :: cs => by
    cases h : tryMatchAt alts prev (c :: cs) with
    | none =>
      simp only [applyRuleFuel, h]
      exact List.Sublist.cons₂ c (sublist_applyRuleFuel alts color title fuel (some c) cs)
    | some n =>
      simp only [applyRuleFuel, h]
      have ih := sublist_applyRuleFuel alts color title fuel
        ((c :: cs).take n).getLast? ((c :: cs).drop n)
      have h1 : (c :: cs).take n ++ (c :: cs).drop n = c :: cs := List.take_append_drop n _
      have h2 : ((c :: cs).take n ++ (c :: cs).drop n).Sublist
          ((spanOpen color title ++ (c :: cs).take n) ++
            (spanClose ++ applyRuleFuel alts color title fuel ((c :: cs).take n).getLast? ((c :: cs).drop n))) :=
        List.Sublist.append
          (List.sublist_append_right _ _)
          (ih.trans (List.sublist_append_right _ _))
      rw [h1] at h2
      simpa [List.append_assoc] using h2

/-- `re.sub` with word-boundary alternation preserves the subject as a
subsequence. -/
theorem sublist_applyAlts (alts : List String) (color title : String) (chars : List Char) :
    chars.Sublist (applyAlts alts color title chars) :=
  sublist_applyRuleFuel alts color title chars.length none chars

/-- A successful single-rule application preserves the subject as a
subsequence. -/
theorem sublist_applyHRule (r : HRule) (s out : List Char)
    (h : applyHRule r s = Except.ok out) : s.Sublist out := by
  cases r with
  | fixed alts color title =>
    simp only [applyHRule] at h
    injection h with h
    exact h ▸ sublist_applyAlts alts color title s
  | keyword w =>
    simp only [applyHRule] at h
    by_cases hw : regexPlain w
    · rw [if_pos hw] at h
      injection h with h
      exact h ▸ sublist_applyAlts [w] _ _ s
    · rw [if_neg hw] at h
      exact absurd h (by simp)

/-- A successful pass over a rule list preserves the subject as a
subsequence. -/
theorem sublist_applyHRules : ∀ (rs : List HRule) (s out : List Char),
    applyHRules rs s = Except.ok out → s.Sublist out
  | [], s, out, h => by
    simp only [applyHRules] at h
    injection h with h
    exact h ▸ List.Sublist.refl s
  | r :: rs, s, out, h => by
    simp only [applyHRules] at h
    cases hr : applyHRule r s with
    | error e => rw [hr] at h; exact absurd h (by simp)
    | ok s2 =>
      rw [hr] at h
      exact (sublist_applyHRule r s s2 hr).trans (sublist_applyHRules rs s2 out h)

/-! ## Lemmas on substring tests over blank texts (for C7) -/

/-- A non-empty needle is not a substring of the empty string. -/
theorem containsSub_nil (n : List Char) (hn : n ≠ []) : containsSub n [] = false := by
  cases n with
  | nil => exact absurd rfl hn
  | cons a as => simp [containsSub, List.isEmpty]

/-- A non-empty needle of non-whitespace characters is not a substring
of an all-whitespace haystack. -/
theorem containsSub_all_space (n : List Char) (hn : n ≠ [])
    (hnc : ∀ c ∈ n, isPySpace c = false) :
    ∀ h : List Char, (∀ c ∈ h, isPySpace c = true) → containsSub n h = false := by
  intro h
  induction h with
  | nil => exact fun _ => containsSub_nil n hn
  | cons c cs ihh =>
    intro hh
    match n, hn with
    | a :: as, _ =>
      have hac : (a == c) = false := by
        apply beq_eq_false_iff_ne.mpr
        intro hEq
        have h1 := hnc a (by simp)
        have h2 := hh c (by simp)
        rw [hEq, h2] at h1
        exact Bool.true_eq_false.mp h1
      have hp : (a :: as).isPrefixOf (c :: cs) = false := by
        simp [List.isPrefixOf, hac]
      simp only [containsSub, hp, Bool.false_or]
      exact ihh (fun x hx => hh x (List.mem_cons_of_mem c hx))

/-- `pySplitWs` never yields a non-empty `d :: ds` list of segments...
more precisely, a token-initial text always yields at least one segment. -/
theorem pySplitWs_cons_ne_nil (d : Char) (ds : List Char) (hd : isPySpace d = false) :
    pySplitWs (d :: ds) ≠ [] := by
  match ds with
  | [] => rw [pySplitWs_singleton d hd]; simp
  | e :: es =>
    by_cases he : isPySpace e
    · rw [pySplitWs_cons_break d e es hd he]; simp
    · rw [pySplitWs_cons_glue d e es hd (by simpa using he)]; simp

/-- Every segment produced by `str.split()` is non-empty and free of
whitespace characters. -/
theorem pySplitWs_members : ∀ l : List Char, ∀ w ∈ pySplitWs l,
    w ≠ [] ∧ ∀ c ∈ w, isPySpace c = false
  | [], w, hw => by simp [pySplitWs] at hw
  | c :: cs, w, hw => by
    by_cases hc : isPySpace c
    · rw [pySplitWs_cons_space c cs hc] at hw
      exact pySplitWs_members cs w hw
    · have hc' : isPySpace c = false := by simpa using hc
      match cs with
      | [] =>
        rw [pySplitWs_singleton c hc'] at hw
        simp at hw
        subst hw
        exact ⟨by simp, by simpa using hc'⟩
      | d :: ds =>
        by_cases hd : isPySpace d
        · rw [pySplitWs_cons_break c d ds hc' hd] at hw
          rcases List.mem_cons.mp hw with hw | hw
          · subst hw
            exact ⟨by simp, by simpa using hc'⟩
          · exact pySplitWs_members (d :: ds) w hw
        · have hd' : isPySpace d = false := by simpa using hd
          rw [pySplitWs_cons_glue c d ds hc' hd'] at hw
          rcases List.exists_cons_of_ne_nil (pySplitWs_cons_ne_nil d ds hd') with ⟨g, gs, hg⟩
          rw [hg] at hw
          simp only [List.headD_cons, List.tail_cons] at hw
          rcases List.mem_cons.mp hw with hw | hw
          · subst hw
            have hgmem := pySplitWs_members (d :: ds) g (by rw [hg]; simp)
            refine ⟨by simp, ?_⟩
            intro x hx
            rcases List.mem_cons.mp hx with hx | hx
            · subst hx; exact hc'
            · exact hgmem.2 x hx
          · exact pySplitWs_members (d :: ds) w (by rw [hg]; exact List.mem_cons_of_mem g hw)

/-! ## Claim theorems -/

/-- C1: for every input text, the analyzer's three metrics equal the
specified counting algorithms: `wordCount` is the number of
whitespace-delimited tokens of the raw text, `sentenceCount` the number
of segments of a split on the literal character '.' whose stripped form
is non-empty, and `paragraphCount` the number of segments of a split on
a double newline whose stripped form is non-empty. -/
theorem analyze_counts_match_spec (text : String) (sc : EmailScenario) :
    (analyze text sc).wordCount = wordStarts true text.data ∧
    (analyze text sc).sentenceCount = ((splitOnChar '.' text.data).filter hasInk).length ∧
    (analyze text sc).paragraphCount = ((splitOnNN text.data).filter hasInk).length := by
  refine ⟨(pySplitWs_length_aux text.data).1, ?_, ?_⟩
  · show ((splitOnChar '.' text.data).filter (fun s => decide (0 < (pyStrip s).length))).length = _
    rw [List.filter_congr (fun s _ => strip_pos_eq_hasInk s)]
  · show ((splitOnNN text.data).filter (fun s => decide (0 < (pyStrip s).length))).length = _
    rw [List.filter_congr (fun s _ => strip_pos_eq_hasInk s)]

/-- C2: whenever `_highlight_text` returns an output, the characters of
the input text all occur in the output, in order, as a subsequence: the
highlighter only wraps matched substrings (preserving their casing) and
never deletes or reorders characters of the input. -/
theorem highlight_preserves_characters (t : String) (sc : EmailScenario) (out : String)
    (h : _highlight_text t sc = Except.ok out) : t.data.Sublist out.data := by
  unfold _highlight_text at h
  cases hh : applyHRules (highlight_rules sc) t.data with
  | error e =>
    rw [hh] at h
    exact absurd h (by simp)
  | ok l =>
    rw [hh] at h
    injection h with h
    subst h
    have h1 : t.data.Sublist l := sublist_applyHRules _ _ _ hh
    have h2 : t.data.Sublist (divOpen ++ (l ++ divClose)) :=
      (h1.trans (List.sublist_append_left l divClose)).trans
        (List.sublist_append_right divOpen (l ++ divClose))
    simpa [List.append_assoc] using h2

/-- Witness for C2 at the concrete input "x" with the empty scenario:
no rule matches, so the output is the text wrapped in the outer div. -/
theorem highlight_preserves_characters_witness :
    "x".data.Sublist (String.mk (divOpen ++ "x".data ++ divClose)).data :=
  highlight_preserves_characters "x" scEmpty (String.mk (divOpen ++ "x".data ++ divClose)) (by rfl)

/-- C3: each of the five structure features is reported present exactly
when its case-insensitive containment test holds on the full text:
Greeting on the substring "dear"; Closing on any of regards, sincerely,
best, cheers, cordially; Polite Language on any of please, thank you,
appreciate, grateful; Clear Purpose on any of purpose, reason, writing,
contacting or any lowercase whitespace-split word of the scenario
prompt; Professional Tone on none of the four informal markers. -/
theorem analyze_features_iff_containment (text : String) (sc : EmailScenario) :
    (analyze text sc).greeting = pyContains "dear" (pyLower text) ∧
    (analyze text sc).closing =
      (["regards", "sincerely", "best", "cheers", "cordially"]).any
        (fun w => pyContains w (pyLower text)) ∧
    (analyze text sc).politeLanguage =
      (["please", "thank you", "appreciate", "grateful"]).any
        (fun w => pyContains w (pyLower text)) ∧
    (analyze text sc).clearPurpose =
      ((["purpose", "reason", "writing", "contacting"] ++
          pySplitWsStr (pyLower sc.prompt)).any
        (fun w => pyContains w (pyLower text))) ∧
    (analyze text sc).professionalTone =
      !((["hey", "hi", "what\x27s up", "lol"]).any
        (fun w => pyContains w (pyLower text))) :=
  ⟨rfl, rfl, rfl, rfl, rfl⟩

/-- No whitespace-split word of a prompt occurs as a substring of an
all-whitespace text: split words are non-empty and whitespace-free. -/
theorem promptWords_not_in_blank (p blank : String)
    (hblank : ∀ c ∈ blank.data, isPySpace c = true) :
    (pySplitWsStr p).any (fun w => pyContains w blank) = false := by
  apply List.any_eq_false.mpr
  intro w hw
  rcases List.mem_map.mp hw with ⟨v, hv, hveq⟩
  have hm := pySplitWs_members p.data v hv
  subst hveq
  show ¬ (containsSub v blank.data = true)
  rw [containsSub_all_space v hm.1 hm.2 blank.data hblank]
  simp

/-- C7: invoked directly on the empty string or on the whitespace-only
string "   ", the analyzer returns zero counts and reports every feature
absent except Professional Tone (vacuously true); Clear Purpose is false
because no prompt word overlaps a blank text. -/
theorem analyze_empty_and_blank (sc : EmailScenario) :
    (analyze "" sc).wordCount = 0 ∧ (analyze "" sc).sentenceCount = 0 ∧
    (analyze "" sc).paragraphCount = 0 ∧ (analyze "" sc).greeting = false ∧
    (analyze "" sc).closing = false ∧ (analyze "" sc).politeLanguage = false ∧
    (analyze "" sc).clearPurpose = false ∧ (analyze "" sc).professionalTone = true ∧
    (analyze "   " sc).wordCount = 0 ∧ (analyze "   " sc).sentenceCount = 0 ∧
    (analyze "   " sc).paragraphCount = 0 ∧ (analyze "   " sc).greeting = false ∧
    (analyze "   " sc).closing = false ∧ (analyze "   " sc).politeLanguage = false ∧
    (analyze "   " sc).clearPurpose = false ∧ (analyze "   " sc).professionalTone = true := by
  refine ⟨rfl, rfl, rfl, rfl, rfl, rfl, ?_, rfl, rfl, rfl, rfl, rfl, rfl, rfl, ?_, rfl⟩
  · show ((["purpose", "reason", "writing", "contacting"] ++
        pySplitWsStr (pyLower sc.prompt)).any
      (fun w => pyContains w (pyLower ""))) = false
    rw [List.any_append,
      promptWords_not_in_blank (pyLower sc.prompt) (pyLower "") (by decide)]
    decide
  · show ((["purpose", "reason", "writing", "contacting"] ++
        pySplitWsStr (pyLower sc.prompt)).any
      (fun w => pyContains w (pyLower "   "))) = false
    rw [List.any_append,
      promptWords_not_in_blank (pyLower sc.prompt) (pyLower "   ") (by decide)]
    decide

/-- C4 counterexample: `highlight` is not total — with a scenario prompt
word containing regex-significant characters ("((((x"), the dynamically
built pattern fails to compile and the call fails instead of returning a
string. -/
theorem highlight_fails_on_regex_metachar :
    _highlight_text "hello" scBadRegex = Except.error "re.error" := by rfl

/-- A rule list whose keyword rules all carry metacharacter-free words
applies without failure. -/
theorem applyHRules_ok_of_plain : ∀ (rs : List HRule) (s : List Char),
    (∀ w, HRule.keyword w ∈ rs → regexPlain w = true) →
    ∃ l, applyHRules rs s = Except.ok l
  | [], s, _ => ⟨s, rfl⟩
  | HRule.fixed alts color title :: rs, s, h => by
    rcases applyHRules_ok_of_plain rs (applyAlts alts color title s)
        (fun w hw => h w (List.mem_cons_of_mem _ hw)) with ⟨l, hl⟩
    exact ⟨l, by simp only [applyHRules, applyHRule]; exact hl⟩
  | HRule.keyword w :: rs, s, h => by
    have hw : regexPlain w = true := h w (by simp)
    rcases applyHRules_ok_of_plain rs (applyAlts [w] "#00BCD4" "Scenario keyword" s)
        (fun v hv => h v (List.mem_cons_of_mem _ hv)) with ⟨l, hl⟩
    refine ⟨l, ?_⟩
    simp only [applyHRules, applyHRule, hw, if_pos]
    exact hl

/-- C4 amended: `highlight(text, scenario)` returns a string for every
text whenever every scenario-keyword word (word longer than 4 characters
from the lowercased, whitespace-split prompt and context) is free of
regex metacharacters; a word with regex-significant characters can make
the interpolated pattern fail to compile, and the call fails. -/
theorem highlight_total_on_plain_keywords (text : String) (sc : EmailScenario)
    (h : (scenarioKeywords sc).all regexPlain = true) :
    ∃ out, _highlight_text text sc = Except.ok out := by
  have hplain : ∀ w, HRule.keyword w ∈ highlight_rules sc → regexPlain w = true := by
    intro w hw
    rcases List.mem_append.mp hw with hw | hw
    · simp [fixedRules] at hw
    · rcases List.mem_map.mp hw with ⟨v, hv, hveq⟩
      injection hveq with hveq
      subst hveq
      exact List.all_eq_true.mp h v hv
  rcases applyHRules_ok_of_plain (highlight_rules sc) text.data hplain with ⟨l, hl⟩
  exact ⟨String.mk (divOpen ++ l ++ divClose), by simp only [_highlight_text, hl]⟩

/-- Witness for the amended claim C4 at the empty scenario. -/
theorem highlight_total_on_plain_keywords_witness :
    (scenarioKeywords scEmpty).all regexPlain = true ∧
    ∃ out, _highlight_text "a" scEmpty = Except.ok out :=
  ⟨by decide, highlight_total_on_plain_keywords "a" scEmpty (by decide)⟩

/-- C5 counterexample: the scenario-keyword rules are built per
occurrence, not per distinct word — a repeated prompt word yields two
rules, so the rule list differs from one rule per distinct word. -/
theorem highlight_rules_not_deduplicated :
    highlight_rules scRepeatedWord ≠
      fixedRules ++ (dedupKeepFirst (scenarioKeywords scRepeatedWord)).map HRule.keyword := by
  decide

/-- C5 amended: the scenario-keyword rules consist of one word-boundary,
case-insensitive rule per occurrence (duplicates included) of each word
longer than 4 characters from the lowercased, whitespace-split prompt
followed by the context, appended after the eight fixed rules in
encounter order. -/
theorem highlight_rules_per_occurrence (sc : EmailScenario) :
    (highlight_rules sc).take fixedRules.length = fixedRules ∧
    (highlight_rules sc).drop fixedRules.length =
      (scenarioKeywords sc).map HRule.keyword :=
  ⟨List.take_left fixedRules _, List.drop_left fixedRules _⟩

/-- C6 counterexample: on the example text the analyzer computes word
count 12 (the text splits into 12 whitespace-delimited tokens), not 11
as the claim states. -/
theorem analyze_example_wordcount_ne_eleven :
    (analyze exampleText scEmpty).wordCount ≠ 11 := by decide

/-- C6 amended: on the example text (any scenario) the analyzer reports
wordCount = 12, sentenceCount = 2, Greeting, Closing and Polite Language
present, and the weak-phrase smell detector finds exactly "just". -/
theorem analyze_example_report (sc : EmailScenario) :
    (analyze exampleText sc).wordCount = 12 ∧
    (analyze exampleText sc).sentenceCount = 2 ∧
    (analyze exampleText sc).greeting = true ∧
    (analyze exampleText sc).closing = true ∧
    (analyze exampleText sc).politeLanguage = true ∧
    (analyze exampleText sc).weakPhrases = ["just"] :=
  ⟨rfl, rfl, rfl, rfl, rfl, rfl⟩

/-- C8 counterexample: the complex-word smell detector matches
substrings, so the text "utilized" does trigger the "utilize"
complex-word match (the claim required it not to). -/
theorem complex_smell_triggers_on_utilized :
    (analyze "utilized" scEmpty).complexWords = ["utilize"] := by decide

/-- C8 amended: the Complex word highlight rule implements whole-word
matching — "utilized" does not trigger it while "utilize the plan"
does — whereas the complex-word smell detector matches substrings and is
triggered by both texts. -/
theorem complex_word_boundary_behavior :
    ruleMatchExists complexWordAlts "utilized" = false ∧
    ruleMatchExists complexWordAlts "utilize the plan" = true ∧
    (analyze "utilized" scEmpty).complexWords = ["utilize"] ∧
    (analyze "utilize the plan" scEmpty).complexWords = ["utilize"] :=
  ⟨by decide, by decide, by decide, by decide⟩

/-- C9 counterexample: `save_vocabulary` appends unconditionally, so
saving "Deadline" over a vocabulary containing "deadline" persists two
entries with the same case-insensitive english key — the invariant is
not preserved by every operation. -/
theorem save_vocabulary_breaks_dedup_invariant :
    (save_vocabulary none true wDeadlineCap).2 =
      some (default_vocabulary ++ [wDeadlineCap]) ∧
    ¬ ((default_vocabulary ++ [wDeadlineCap]).map vocabKey).Nodup :=
  ⟨rfl, by decide⟩

/-- C9 amended: the load-time merge deduplicates by the case-insensitive
english key — a loaded list with pairwise distinct keys merges with the
defaults into a list with pairwise distinct keys — while
`save_vocabulary` appends its word unconditionally and does not preserve
the invariant. -/
theorem load_vocabulary_merge_preserves_dedup (loaded : List VocabularyWord)
    (h : (loaded.map vocabKey).Nodup) :
    ((load_vocabulary (some loaded)).map vocabKey).Nodup := by
  show ((loaded ++ default_vocabulary.filter
      (fun w => !((loaded.map vocabKey).contains (vocabKey w)))).map vocabKey).Nodup
  rw [List.map_append, List.nodup_append]
  refine ⟨h, ?_, ?_⟩
  · have hsub : ((default_vocabulary.filter
        (fun w => !((loaded.map vocabKey).contains (vocabKey w)))).map vocabKey).Sublist
        (default_vocabulary.map vocabKey) :=
      (List.filter_sublist default_vocabulary).map vocabKey
    have hdv : (default_vocabulary.map vocabKey).Nodup := by decide
    exact hdv.sublist hsub
  · intro x hx hx2
    rcases List.mem_map.mp hx2 with ⟨w, hw, hweq⟩
    rcases List.mem_filter.mp hw with ⟨_, hp⟩
    have hmem : vocabKey w ∉ loaded.map vocabKey := by
      simpa using hp
    rw [hweq] at hmem
    exact hmem hx

/-- Witness for the amended claim C9 at a concrete one-entry loaded list. -/
theorem load_vocabulary_merge_preserves_dedup_witness :
    (([⟨"scheduling", "programmazione", "", ""⟩] :
        List VocabularyWord).map vocabKey).Nodup ∧
    ((load_vocabulary (some [⟨"scheduling", "programmazione", "", ""⟩])).map vocabKey).Nodup :=
  ⟨by decide,
    load_vocabulary_merge_preserves_dedup [⟨"scheduling", "programmazione", "", ""⟩] (by decide)⟩

/-- C10: `save_vocabulary` never raises (the surrounding try/except
turns every exception into a `False` return): it returns `True` exactly
when the file write succeeds — loading never fails, it falls back to the
defaults — and on success the persisted list is the previously loaded
list with the new word appended at the end, all prior entries unchanged. -/
theorem save_vocabulary_contract (file : Option (List VocabularyWord))
    (word : VocabularyWord) (writeOk : Bool) :
    ((save_vocabulary file writeOk word).1 = true ↔ writeOk = true) ∧
    ((save_vocabulary file writeOk word).1 = true →
      (save_vocabulary file writeOk word).2 = some (load_vocabulary file ++ [word])) := by
  cases writeOk <;> simp [save_vocabulary]

/-- Witness for C10 at a concrete save over the default vocabulary. -/
theorem save_vocabulary_contract_witness :
    (save_vocabulary none true wDeadlineCap).1 = true ∧
    (save_vocabulary none true wDeadlineCap).2 =
      some (load_vocabulary none ++ [wDeadlineCap]) :=
  ⟨(save_vocabulary_contract none wDeadlineCap true).1.mpr rfl,
    (save_vocabulary_contract none wDeadlineCap true).2 rfl⟩



